import Mathlib

/-!
Shallow embedding of the Gradle build-cache gateway (Go) for verification.

Bytes are modelled as `Nat` (Go `byte` values, `< 256` where it matters);
an artifact body is a `List Nat`.  The Redis backend state is an
association list from redis keys to stored byte strings.  Go strings
carrying secrets are modelled by their byte sequences.
-/

set_option autoImplicit false

namespace GradleCache

/-- The in-memory (Redis) backend state: key-value store of byte strings. -/
abbrev RedisState := List (String × List Nat)

/-- `RedisStorage.redisKey`: the full redis key, with the optional
namespace prepended with a `:` separator (empty namespace means the raw key). -/
def redisKey (ns key : String) : String :=
  if ns = "" then key else ns ++ ":" ++ key

/-- Lookup a key in the redis store (`client.Get`). -/
def redisLookup (st : RedisState) (k : String) : Option (List Nat) :=
  match st with
  | [] => none
  | (k', v) :: rest => if k' = k then some v else redisLookup rest k

/-- `client.Set`: bind `k` to `v`, replacing any previous binding. -/
def redisSet (st : RedisState) (k : String) (v : List Nat) : RedisState :=
  match st with
  | [] => [(k, v)]
  | (k', v') :: rest =>
    if k' = k then (k, v) :: rest else (k', v') :: redisSet rest k v

/-- `RedisStorage.Get`: returns the stored bytes and their length
(`int64(len(data))`); `redis.Nil` becomes `ErrNotFound`, modelled as `none`. -/
def RedisStorage.get (ns : String) (st : RedisState) (key : String) :
    Option (List Nat × Int) :=
  match redisLookup st (redisKey ns key) with
  | none => none
  | some data => some (data, (data.length : Int))

/-- `RedisStorage.Put`: reads the reader to exhaustion (`io.ReadAll`) and
stores all bytes read; the declared `size` parameter is not consulted. -/
def RedisStorage.put (ns : String) (st : RedisState) (key : String)
    (data : List Nat) (_size : Int) : RedisState :=
  redisSet st (redisKey ns key) data

/-- `RedisStorage.Exists`: `client.Exists` count is positive. -/
def RedisStorage.exists (ns : String) (st : RedisState) (key : String) : Bool :=
  (redisLookup st (redisKey ns key)).isSome

theorem redisLookup_set_self (st : RedisState) (k : String) (v : List Nat) :
    redisLookup (redisSet st k v) k = some v := by
  induction st with
  | nil => simp [redisSet, redisLookup]
  | cons hd tl ih =>
    obtain ⟨k', v'⟩ := hd
    by_cases h : k' = k
    · simp [redisSet, redisLookup, h]
    · simp [redisSet, redisLookup, h, ih]

/-! ## crypto/subtle constant-time comparison -/

/-- Go `subtle.ConstantTimeByteEq(x, y)`: `int((uint32(x^y) - 1) >> 31)`,
with `uint32` wraparound made explicit. -/
def constantTimeByteEq (x y : Nat) : Nat :=
  (((x ^^^ y) + (2 ^ 32 - 1)) % 2 ^ 32) / 2 ^ 31

/-- The accumulation loop of `subtle.ConstantTimeCompare`:
`for i { v |= x[i] ^ y[i] }`. -/
def ctcAccum : List (Nat × Nat) → Nat → Nat
  | [], v => v
  | (a, b) :: rest, v => ctcAccum rest (v ||| (a ^^^ b))

/-- Go `subtle.ConstantTimeCompare(x, y)`: `0` on length mismatch, else
fold the xor of corresponding bytes with `|=` and test the result. -/
def constantTimeCompare (x y : List Nat) : Nat :=
  if x.length = y.length then
    constantTimeByteEq (ctcAccum (x.zip y) 0) 0
  else 0

theorem constantTimeByteEq_zero (v : Nat) (hv : v < 2 ^ 31) :
    constantTimeByteEq v 0 = if v = 0 then 1 else 0 := by
  unfold constantTimeByteEq
  rcases Nat.eq_zero_or_pos v with h0 | hpos
  · subst h0; decide
  · have hne : v ≠ 0 := Nat.pos_iff_ne_zero.mp hpos
    simp only [Nat.xor_zero, if_neg hne]
    have hlt : v + (2 ^ 32 - 1) < 2 * 2 ^ 32 := by omega
    have hge : 2 ^ 32 ≤ v + (2 ^ 32 - 1) := by omega
    have hmod : (v + (2 ^ 32 - 1)) % 2 ^ 32 = v - 1 := by omega
    rw [hmod]
    have : v - 1 < 2 ^ 31 := by omega
    exact Nat.div_eq_of_lt this

theorem nat_or_eq_zero_iff (x y : Nat) : x ||| y = 0 ↔ x = 0 ∧ y = 0 := by
  constructor
  · intro h
    constructor
    · apply Nat.eq_of_testBit_eq
      intro i
      have hb := congrArg (fun n => Nat.testBit n i) h
      simp only [Nat.testBit_or, Nat.zero_testBit, Bool.or_eq_false_iff] at hb
      simp [hb.1]
    · apply Nat.eq_of_testBit_eq
      intro i
      have hb := congrArg (fun n => Nat.testBit n i) h
      simp only [Nat.testBit_or, Nat.zero_testBit, Bool.or_eq_false_iff] at hb
      simp [hb.2]
  · rintro ⟨rfl, rfl⟩; rfl

theorem ctcAccum_lt (l : List (Nat × Nat)) (v : Nat)
    (hl : ∀ p ∈ l, p.1 < 256 ∧ p.2 < 256) (hv : v < 256) :
    ctcAccum l v < 256 := by
  induction l generalizing v with
  | nil => exact hv
  | cons p rest ih =>
    obtain ⟨a, b⟩ := p
    have ha : a < 256 := (hl (a, b) (List.mem_cons_self _ _)).1
    have hb : b < 256 := (hl (a, b) (List.mem_cons_self _ _)).2
    have h28 : (2 : Nat) ^ 8 = 256 := by norm_num
    have hx : a ^^^ b < 256 := by
      rw [← h28] at ha hb ⊢
      exact Nat.xor_lt_two_pow ha hb
    have hor : v ||| (a ^^^ b) < 256 := by
      rw [← h28] at hv hx ⊢
      exact Nat.or_lt_two_pow hv hx
    exact ih _ (fun p hp => hl p (List.mem_cons_of_mem _ hp)) hor

theorem ctcAccum_eq_zero_iff (l : List (Nat × Nat)) (v : Nat) :
    ctcAccum l v = 0 ↔ v = 0 ∧ ∀ p ∈ l, p.1 = p.2 := by
  induction l generalizing v with
  | nil => simp [ctcAccum]
  | cons p rest ih =>
    obtain ⟨a, b⟩ := p
    simp only [ctcAccum, ih, nat_or_eq_zero_iff, List.mem_cons]
    constructor
    · rintro ⟨⟨hv, hx⟩, hrest⟩
      refine ⟨hv, ?_⟩
      rintro q (rfl | hq)
      · exact Nat.xor_eq_zero.mp hx
      · exact hrest q hq
    · rintro ⟨hv, hall⟩
      refine ⟨⟨hv, Nat.xor_eq_zero.mpr (hall (a, b) (Or.inl rfl))⟩, ?_⟩
      exact fun q hq => hall q (Or.inr hq)

theorem mem_zip_self {x : List Nat} (p : Nat × Nat) (hp : p ∈ x.zip x) :
    p.1 = p.2 := by
  induction x with
  | nil => simp [List.zip] at hp
  | cons a xs ih =>
    rcases List.mem_cons.mp hp with h | h
    · subst h; rfl
    · exact ih h

theorem zip_pointwise_eq {x y : List Nat} (hlen : x.length = y.length)
    (h : ∀ p ∈ x.zip y, p.1 = p.2) : x = y := by
  induction x generalizing y with
  | nil => cases y with
    | nil => rfl
    | cons b ys => simp at hlen
  | cons a xs ih =>
    cases y with
    | nil => simp at hlen
    | cons b ys =>
      have hab : a = b := h (a, b) (List.mem_cons_self _ _)
      have hxs : xs = ys := by
        refine ih (by simpa using hlen) ?_
        exact fun p hp => h p (List.mem_cons_of_mem _ hp)
      rw [hab, hxs]

/-- Correctness of the Go constant-time comparison on byte strings. -/
theorem constantTimeCompare_eq_one_iff (x y : List Nat)
    (hx : ∀ b ∈ x, b < 256) (hy : ∀ b ∈ y, b < 256) :
    (constantTimeCompare x y = 1 ↔ x = y) := by
  unfold constantTimeCompare
  by_cases hlen : x.length = y.length
  · simp only [if_pos hlen]
    have hpairs : ∀ p ∈ x.zip y, p.1 < 256 ∧ p.2 < 256 := by
      intro p hp
      exact ⟨hx p.1 (List.of_mem_zip hp).1, hy p.2 (List.of_mem_zip hp).2⟩
    have hacc : ctcAccum (x.zip y) 0 < 256 := ctcAccum_lt _ 0 hpairs (by omega)
    rw [constantTimeByteEq_zero _ (by omega)]
    by_cases hz : ctcAccum (x.zip y) 0 = 0
    · simp only [if_pos hz]
      have := (ctcAccum_eq_zero_iff (x.zip y) 0).mp hz
      simp only [true_iff]
      exact zip_pointwise_eq hlen this.2
    · simp only [if_neg hz]
      constructor
      · intro h; omega
      · intro hxy
        exfalso
        apply hz
        refine (ctcAccum_eq_zero_iff _ _).mpr ⟨rfl, ?_⟩
        intro p hp
        subst hxy
        exact mem_zip_self p hp
  · simp only [if_neg hlen]
    constructor
    · intro h; omega
    · intro hxy
      subst hxy
      exact absurd rfl hlen

/-! ## Go string conversions used by the handlers -/

/-- UTF-8 encoding of a Unicode code point (used by Go `string(r)`). -/
def utf8Encode (c : Nat) : List Nat :=
  if c < 0x80 then [c]
  else if c < 0x800 then [0xC0 + c / 64, 0x80 + c % 64]
  else if c < 0x10000 then
    [0xE0 + c / 4096, 0x80 + c / 64 % 64, 0x80 + c % 64]
  else
    [0xF0 + c / 262144, 0x80 + c / 4096 % 64, 0x80 + c / 64 % 64, 0x80 + c % 64]

/-- Go `string(rune(i))` for an `int64` `i`: the conversion to `rune`
truncates to 32 bits (two's complement), then an invalid code point
(negative, beyond U+10FFFF, or a surrogate) becomes U+FFFD, and the
resulting single code point is UTF-8 encoded. -/
def goStringOfRune (i : Int) : List Nat :=
  let r : Int := (i + 2 ^ 31) % 2 ^ 32 - 2 ^ 31
  if 0 ≤ r ∧ r ≤ 0x10FFFF ∧ ¬(0xD800 ≤ r ∧ r ≤ 0xDFFF) then
    utf8Encode r.toNat
  else utf8Encode 0xFFFD

/-- The ASCII bytes of the decimal representation of `n`
(what a correct `Content-Length` header for size `n` would contain). -/
def decimalAscii (n : Nat) : List Nat :=
  (Nat.toDigits 10 n).map Char.toNat

/-! ## HTTP-level model: responses, storage results, cache handlers -/

/-- The observable parts of an HTTP response produced by the gateway:
status code, body bytes, and the headers the handlers set.  Header values
are byte strings (`contentLengthHeader` in particular, since the code
builds it with `string(rune(size))`). -/
structure Response where
  status : Nat
  body : List Nat
  contentType : Option String
  contentLengthHeader : Option (List Nat)
  wwwAuthenticate : Option String
deriving DecidableEq, Repr

/-- A response carrying only a status code (`c.Status(...)`). -/
def statusResponse (s : Nat) : Response :=
  ⟨s, [], none, none, none⟩

/-- Outcome of a `Storage.Get` call as seen by the handler: success with
content and reported size, `ErrNotFound`, or any other backend error
(with its message). -/
inductive StorageGetResult where
  | ok (data : List Nat) (size : Int)
  | notFound
  | err (msg : String)
deriving DecidableEq, Repr

/-- `CacheHandler.Get`: empty key → 400; `ErrNotFound` → 404; other
error → 500 (error only logged, response has no body); success → 200,
`Content-Type: application/octet-stream`, a `Content-Length` header set
to `string(rune(size))`, and the content streamed back. -/
def cacheGet (key : String) (r : StorageGetResult) : Response :=
  if key = "" then statusResponse 400
  else
    match r with
    | .notFound => statusResponse 404
    | .err _ => statusResponse 500
    | .ok data size =>
      ⟨200, data, some "application/octet-stream",
        some (goStringOfRune size), none⟩

/-- Outcome of a `Storage.Exists` call: a boolean, or a backend error. -/
inductive StorageExistsResult where
  | ok (found : Bool)
  | err (msg : String)
deriving DecidableEq, Repr

/-- `CacheHandler.Head`: empty key → 400; error → 500; absent → 404;
present → 200, no body. -/
def cacheHead (key : String) (r : StorageExistsResult) : Response :=
  if key = "" then statusResponse 400
  else
    match r with
    | .err _ => statusResponse 500
    | .ok false => statusResponse 404
    | .ok true => statusResponse 200

/-- What `CacheHandler.Put` did: the resulting status, the `Storage.Put`
call it made (key, bytes handed over, declared size passed), if any, and
how many body bytes the handler itself read (the chunked branch). -/
structure PutOutcome where
  status : Nat
  putCall : Option (String × List Nat × Int)
  handlerBytesRead : Nat
deriving DecidableEq, Repr

/-- `CacheHandler.Put`: empty key → 400; declared `Content-Length`
above the maximum → 413 before touching the body; negative (unknown)
length → read at most `maxEntrySize+1` bytes via `io.LimitReader`,
413 if more than `maxEntrySize` were read, otherwise the byte count
read becomes the declared size; then `Storage.Put`, 500 on storage
error, 201 on success.  `storagePutErr` is the backend's reply. -/
def cachePut (maxEntrySize : Int) (key : String) (contentLength : Int)
    (body : List Nat) (storagePutErr : Option String) : PutOutcome :=
  if key = "" then ⟨400, none, 0⟩
  else if contentLength > maxEntrySize then ⟨413, none, 0⟩
  else if contentLength < 0 then
    let data := body.take (maxEntrySize + 1).toNat
    if (data.length : Int) > maxEntrySize then ⟨413, none, data.length⟩
    else
      match storagePutErr with
      | some _ => ⟨500, some (key, data, (data.length : Int)), data.length⟩
      | none => ⟨201, some (key, data, (data.length : Int)), data.length⟩
  else
    match storagePutErr with
    | some _ => ⟨500, some (key, body, contentLength), 0⟩
    | none => ⟨201, some (key, body, contentLength), 0⟩

/-! ## Access control gate (middleware.BasicAuth and RequireRole) -/

/-- A configured user (`config.UserAuth`); the password is modelled by
its byte sequence (Go compares `[]byte(password)`). -/
structure UserAuth where
  username : String
  password : List Nat
  role : String
deriving DecidableEq, Repr

/-- The value stored in the credential map (`middleware.userCredential`). -/
structure UserCredential where
  password : List Nat
  role : String
deriving DecidableEq, Repr

/-- The credential map built by `BasicAuth`:
`for _, user := range users { credentials[user.Username] = ... }` —
a later entry with the same username overwrites an earlier one. -/
def credLookup (users : List UserAuth) (name : String) : Option UserCredential :=
  match users with
  | [] => none
  | u :: rest =>
    match credLookup rest name with
    | some c => some c
    | none => if u.username = name then some ⟨u.password, u.role⟩ else none

/-- The 401 challenge response the middleware emits in all three
rejection branches. -/
def challengeResponse : Response :=
  ⟨401, [], none, none, some "Basic realm=\"Gradle Build Cache\""⟩

/-- Result of running the auth middleware: abort with a response, or
proceed with the authenticated username and its role attached to the
request context. -/
inductive GateResult where
  | abort (resp : Response)
  | proceed (username : String) (role : String)
deriving DecidableEq, Repr

/-- `middleware.BasicAuth`: missing/malformed header (`!ok`) → 401 with
challenge; unknown username → same 401; constant-time password mismatch
→ same 401; otherwise store username and role and continue.  `creds` is
`none` when `Request.BasicAuth()` fails. -/
def basicAuthGate (users : List UserAuth) (creds : Option (String × List Nat)) :
    GateResult :=
  match creds with
  | none => .abort challengeResponse
  | some (username, password) =>
    match credLookup users username with
    | none => .abort challengeResponse
    | some cred =>
      if constantTimeCompare password cred.password ≠ 1 then
        .abort challengeResponse
      else .proceed username cred.role

/-- Computational steps the auth middleware performs after header
parsing, in order: the credential-table lookup, the constant-time
secret comparison (with the number of byte operations its loop runs:
`0` on length mismatch, else the common length), and attaching the
identity to the context on success. -/
inductive AuthStep where
  | lookup
  | compareSecrets (byteOps : Nat)
  | attachContext
deriving DecidableEq, Repr

/-- Loop iterations `subtle.ConstantTimeCompare` performs. -/
def ctcByteOps (x y : List Nat) : Nat :=
  if x.length = y.length then x.length else 0

/-- The sequence of computational steps `BasicAuth` runs for a request
that carries parseable credentials (the computational path). -/
def basicAuthTrace (users : List UserAuth) (creds : Option (String × List Nat)) :
    List AuthStep :=
  match creds with
  | none => []
  | some (username, password) =>
    match credLookup users username with
    | none => [.lookup]
    | some cred =>
      if constantTimeCompare password cred.password ≠ 1 then
        [.lookup, .compareSecrets (ctcByteOps password cred.password)]
      else
        [.lookup, .compareSecrets (ctcByteOps password cred.password),
          .attachContext]

/-! ## Router (server.setupRoutes) and full request pipeline -/

/-- HTTP methods routed to the cache handler. -/
inductive Method where
  | get
  | head
  | put
deriving DecidableEq, Repr

/-- A bound route: method, path pattern, whether the `BasicAuth`
middleware guards it, and whether `RequireRole("writer")` guards it. -/
structure Route where
  method : Method
  path : String
  requiresAuth : Bool
  requiresWriter : Bool
deriving DecidableEq, Repr

/-- `Server.setupRoutes`: `/ping`, `/health` (and `/metrics` when metrics
are enabled) are registered outside the cache group with no auth
middleware; the `/cache` group gets `BasicAuth` iff auth is enabled, and
its PUT sub-group additionally gets `RequireRole("writer")` iff auth is
enabled. -/
def setupRoutes (authEnabled metricsEnabled : Bool) : List Route :=
  [⟨.get, "/ping", false, false⟩, ⟨.get, "/health", false, false⟩]
  ++ (if metricsEnabled then [⟨.get, "/metrics", false, false⟩] else [])
  ++ [⟨.get, "/cache/:key", authEnabled, false⟩,
      ⟨.head, "/cache/:key", authEnabled, false⟩,
      ⟨.put, "/cache/:key", authEnabled, authEnabled⟩]

/-- `Storage.Get` over the Redis backend, as the GET handler sees it. -/
def storageGetOfRedis (st : RedisState) (key : String) : StorageGetResult :=
  match RedisStorage.get "" st key with
  | none => .notFound
  | some (data, size) => .ok data size

/-- `Storage.Exists` over the Redis backend (it never errors in the model). -/
def storageExistsOfRedis (st : RedisState) (key : String) : StorageExistsResult :=
  .ok (RedisStorage.exists "" st key)

/-- One request to `/cache/{key}` through the full middleware chain and
handler, against the Redis backend: `BasicAuth` (iff `authEnabled`),
then `RequireRole("writer")` for PUT (iff `authEnabled`), then the
cache handler.  Returns the response and the resulting storage state. -/
def serveCache (users : List UserAuth) (authEnabled : Bool) (maxEntrySize : Int)
    (st : RedisState) (m : Method) (creds : Option (String × List Nat))
    (key : String) (contentLength : Int) (body : List Nat) :
    Response × RedisState :=
  let dispatch : Response × RedisState :=
    match m with
    | .get => (cacheGet key (storageGetOfRedis st key), st)
    | .head => (cacheHead key (storageExistsOfRedis st key), st)
    | .put =>
      let r := cachePut maxEntrySize key contentLength body none
      match r.putCall with
      | none => (statusResponse r.status, st)
      | some (k, data, sz) => (statusResponse r.status, RedisStorage.put "" st k data sz)
  if authEnabled then
    match basicAuthGate users creds with
    | .abort resp => (resp, st)
    | .proceed _ role =>
      match m with
      | .put => if role = "writer" then dispatch else (statusResponse 403, st)
      | _ => dispatch
  else dispatch

/-! ## Liveness and readiness endpoints -/

/-- Outcome of `handlePing`, instrumented with whether the handler
invoked the storage port's `Ping`. -/
structure PingOutcome where
  status : Nat
  body : String
  storagePingCalled : Bool
deriving DecidableEq, Repr

/-- `Server.handlePing`: `c.String(200, "pong")`; it never touches the
storage port (`pingResult` is the backend's would-be answer, unused). -/
def handlePing (_pingResult : Option String) : PingOutcome :=
  ⟨200, "pong", false⟩

/-- Outcome of `handleHealth`: status, the fields of the structured JSON
body, and whether `Storage.Ping` was invoked. -/
structure HealthOutcome where
  status : Nat
  bodyStatus : String
  bodyStorage : String
  bodyError : Option String
  storagePingCalled : Bool
deriving DecidableEq, Repr

/-- `Server.handleHealth`: calls `Storage.Ping`; on error 503 with
`{status: unhealthy, storage: unreachable, error: ...}`, else 200 with
`{status: healthy, storage: connected}`. -/
def handleHealth (pingResult : Option String) : HealthOutcome :=
  match pingResult with
  | some e => ⟨503, "unhealthy", "unreachable", some e, true⟩
  | none => ⟨200, "healthy", "connected", none, true⟩

/-! ## Claims -/

/-- C1: a PUT with a non-empty key and unknown (negative) declared length
reads the body incrementally up to `maxEntrySize + 1` bytes; if the number
of bytes read exceeds the maximum the handler answers 413 and never calls
`Storage.Put`; otherwise the actual byte count read is passed to
`Storage.Put` as the effective declared size — in particular a body of
exactly `maxEntrySize` bytes is accepted (201) and stored with size
`maxEntrySize`. -/
theorem c1_put_unknown_length (maxSize : Int) (key : String) (body : List Nat)
    (e : Option String) (hk : key ≠ "") (hm : 0 ≤ maxSize) :
    (cachePut maxSize key (-1) body e).handlerBytesRead
        = min (maxSize.toNat + 1) body.length ∧
    (maxSize < (body.length : Int) →
      (cachePut maxSize key (-1) body e).status = 413 ∧
      (cachePut maxSize key (-1) body e).putCall = none) ∧
    ((body.length : Int) ≤ maxSize →
      (cachePut maxSize key (-1) body e).putCall
        = some (key, body, (body.length : Int)) ∧
      (e = none → (cachePut maxSize key (-1) body e).status = 201)) := by
  have h2 : ¬((-1 : Int) > maxSize) := by omega
  have h3 : ((-1 : Int) < 0) := by norm_num
  have hton : (maxSize + 1).toNat = maxSize.toNat + 1 := by omega
  have hlen : (body.take (maxSize + 1).toNat).length
      = min (maxSize.toNat + 1) body.length := by
    rw [List.length_take, hton]
  simp only [cachePut, if_neg hk, if_neg h2, if_pos h3]
  by_cases hbig : maxSize < (body.length : Int)
  · have hlen413 : (body.take (maxSize + 1).toNat).length = maxSize.toNat + 1 := by
      omega
    have hgt : ((body.take (maxSize + 1).toNat).length : Int) > maxSize := by
      rw [hlen413]; push_cast; omega
    rw [if_pos hgt]
    exact ⟨hlen, fun _ => ⟨rfl, rfl⟩, fun hle => absurd hbig (by omega)⟩
  · have hble : body.length ≤ (maxSize + 1).toNat := by omega
    have htake : body.take (maxSize + 1).toNat = body :=
      List.take_of_length_le hble
    have hngt : ¬(((body.take (maxSize + 1).toNat).length : Int) > maxSize) := by
      rw [htake]; omega
    rw [if_neg hngt]
    refine ⟨?_, fun h => absurd h hbig, fun _ => ?_⟩
    · cases e <;> exact hlen
    · cases e with
      | none => exact ⟨by rw [htake], fun _ => rfl⟩
      | some msg => exact ⟨by rw [htake], fun hc => by cases hc⟩

/-- Witness for C1 at `maxSize = 3`, a 3-byte body (exactly the maximum):
accepted with declared size 3. -/
theorem c1_put_unknown_length_witness :
    (cachePut 3 "k" (-1) [10, 20, 30] none).putCall
        = some ("k", [10, 20, 30], (3 : Int)) ∧
    (cachePut 3 "k" (-1) [10, 20, 30] none).status = 201 := by
  have h := c1_put_unknown_length 3 "k" [10, 20, 30] none
    (by decide) (by norm_num)
  refine ⟨?_, (h.2.2 (by norm_num)).2 rfl⟩
  have := (h.2.2 (by norm_num)).1
  simpa using this

theorem redisKey_empty (key : String) : redisKey "" key = key := by
  simp [redisKey]

/-- `CacheHandler.Put` composed with the Redis backend (no namespace):
the storage state changes exactly when the handler calls `Storage.Put`. -/
def cachePutRedis (maxSize : Int) (st : RedisState) (key : String)
    (contentLength : Int) (body : List Nat) : PutOutcome × RedisState :=
  let r := cachePut maxSize key contentLength body none
  match r.putCall with
  | none => (r, st)
  | some (k, data, sz) => (r, RedisStorage.put "" st k data sz)

/-- C2: a PUT whose payload exceeds the maximum entry size — declared via
the `Content-Length` header or discovered while streaming — answers 413,
never calls `Storage.Put`, and leaves the storage state unchanged; for a
declared oversize the handler reads no body bytes at all. -/
theorem c2_put_oversize_rejected (maxSize : Int) (st : RedisState)
    (key : String) (contentLength : Int) (body : List Nat)
    (hk : key ≠ "") (hm : 0 ≤ maxSize)
    (hover : maxSize < contentLength ∨
      (contentLength < 0 ∧ maxSize < (body.length : Int))) :
    (cachePutRedis maxSize st key contentLength body).1.status = 413 ∧
    (cachePutRedis maxSize st key contentLength body).1.putCall = none ∧
    (cachePutRedis maxSize st key contentLength body).2 = st ∧
    (maxSize < contentLength →
      (cachePutRedis maxSize st key contentLength body).1.handlerBytesRead = 0) := by
  rcases hover with hdecl | ⟨hneg, hbig⟩
  · have hgt : contentLength > maxSize := hdecl
    simp only [cachePutRedis, cachePut, if_neg hk, if_pos hgt]
    exact ⟨trivial, trivial, trivial, fun _ => trivial⟩
  · have h2 : ¬(contentLength > maxSize) := by omega
    simp only [cachePutRedis, cachePut, if_neg hk, if_neg h2, if_pos hneg]
    have hlen413 : (body.take (maxSize + 1).toNat).length = maxSize.toNat + 1 := by
      rw [List.length_take]; omega
    have hgt : ((body.take (maxSize + 1).toNat).length : Int) > maxSize := by
      rw [hlen413]; push_cast; omega
    rw [if_pos hgt]
    exact ⟨rfl, rfl, rfl, fun h => absurd h (by omega)⟩

/-- Witness for C2: max 3, declared length 10 → 413, state untouched;
and max 3, chunked 5-byte body → 413, state untouched. -/
theorem c2_put_oversize_rejected_witness :
    (cachePutRedis 3 [("k", [9])] "k" 10 [1, 2]).1.status = 413 ∧
    (cachePutRedis 3 [("k", [9])] "k" 10 [1, 2]).2 = [("k", [9])] ∧
    (cachePutRedis 3 [("k", [9])] "k" 10 [1, 2]).1.handlerBytesRead = 0 ∧
    (cachePutRedis 3 [("k", [9])] "k" (-1) [1, 2, 3, 4, 5]).1.status = 413 ∧
    (cachePutRedis 3 [("k", [9])] "k" (-1) [1, 2, 3, 4, 5]).2 = [("k", [9])] := by
  have h1 := c2_put_oversize_rejected 3 [("k", [9])] "k" 10 [1, 2]
    (by decide) (by norm_num) (Or.inl (by norm_num))
  have h2 := c2_put_oversize_rejected 3 [("k", [9])] "k" (-1) [1, 2, 3, 4, 5]
    (by decide) (by norm_num) (Or.inr ⟨by norm_num, by norm_num⟩)
  exact ⟨h1.1, h1.2.2.1, h1.2.2.2 (by norm_num), h2.1, h2.2.2.1⟩

/-- Storage-level round-trip law: for artifacts within the size bound, a
successful PUT under `key` followed by GET returns exactly the stored
bytes, `Storage.Get` reports size `len(a)`, and a second PUT under the
same key fully replaces the first, so a later GET sees only the newest
bytes. -/
theorem c3_put_get_roundtrip (maxSize : Int) (st : RedisState) (key : String)
    (a b : List Nat) (hk : key ≠ "")
    (ha : (a.length : Int) ≤ maxSize) (hb : (b.length : Int) ≤ maxSize) :
    (cachePutRedis maxSize st key (a.length : Int) a).1.status = 201 ∧
    RedisStorage.get "" (cachePutRedis maxSize st key (a.length : Int) a).2 key
      = some (a, (a.length : Int)) ∧
    (cacheGet key (storageGetOfRedis
        (cachePutRedis maxSize st key (a.length : Int) a).2 key)).status = 200 ∧
    (cacheGet key (storageGetOfRedis
        (cachePutRedis maxSize st key (a.length : Int) a).2 key)).body = a ∧
    RedisStorage.get ""
        (cachePutRedis maxSize
          (cachePutRedis maxSize st key (a.length : Int) a).2
          key (b.length : Int) b).2 key
      = some (b, (b.length : Int)) := by
  have hput : ∀ (st' : RedisState) (c : List Nat), (c.length : Int) ≤ maxSize →
      cachePutRedis maxSize st' key (c.length : Int) c
        = (⟨201, some (key, c, (c.length : Int)), 0⟩, redisSet st' key c) := by
    intro st' c hc
    have h2 : ¬((c.length : Int) > maxSize) := by omega
    have h3 : ¬((c.length : Int) < 0) := by omega
    simp only [cachePutRedis, cachePut, if_neg hk, if_neg h2, if_neg h3,
      RedisStorage.put, redisKey_empty]
  have hgeta : ∀ (st' : RedisState) (c : List Nat),
      RedisStorage.get "" (redisSet st' key c) key = some (c, (c.length : Int)) := by
    intro st' c
    simp only [RedisStorage.get, redisKey_empty, redisLookup_set_self]
  rw [hput st a ha, hput (redisSet st key a) b hb]
  refine ⟨rfl, hgeta st a, ?_, ?_, hgeta (redisSet st key a) b⟩
  · simp only [storageGetOfRedis, hgeta st a, cacheGet, if_neg hk]
  · simp only [storageGetOfRedis, hgeta st a, cacheGet, if_neg hk]

/-- The round-trip law at two concrete artifacts under one key. -/
theorem c3_put_get_roundtrip_witness :
    RedisStorage.get "" (cachePutRedis 5 [] "k" 2 [1, 2]).2 "k"
      = some ([1, 2], (2 : Int)) ∧
    (cacheGet "k" (storageGetOfRedis (cachePutRedis 5 [] "k" 2 [1, 2]).2 "k")).body
      = [1, 2] ∧
    RedisStorage.get ""
        (cachePutRedis 5 (cachePutRedis 5 [] "k" 2 [1, 2]).2 "k" 3 [7, 8, 9]).2 "k"
      = some ([7, 8, 9], (3 : Int)) := by
  have h := c3_put_get_roundtrip 5 [] "k" [1, 2] [7, 8, 9]
    (by decide) (by norm_num) (by norm_num)
  exact ⟨h.2.1, h.2.2.2.1, h.2.2.2.2⟩

/-- C3, evaluated at a failing input: PUT of the 5-byte artifact
`"hello"` under key `abc123` succeeds (201) and a following GET returns
exactly those bytes byte-for-byte with reported size 5, and a second PUT
of `"world"` fully replaces the first — but the `Content-Length` header
of the GET response is `string(rune(5))`, the single byte `[5]`, not the
decimal `"5"` (byte `[53]`), so the "Content-Length equal to `len(a)`"
conjunct of the claim fails on the code. -/
theorem c3_roundtrip_content_length_bug :
    (cachePutRedis 100 [] "abc123" 5 [104, 101, 108, 108, 111]).1.status
      = 201 ∧
    RedisStorage.get ""
        (cachePutRedis 100 [] "abc123" 5 [104, 101, 108, 108, 111]).2 "abc123"
      = some ([104, 101, 108, 108, 111], (5 : Int)) ∧
    (cacheGet "abc123" (storageGetOfRedis
        (cachePutRedis 100 [] "abc123" 5 [104, 101, 108, 108, 111]).2
        "abc123")).status = 200 ∧
    (cacheGet "abc123" (storageGetOfRedis
        (cachePutRedis 100 [] "abc123" 5 [104, 101, 108, 108, 111]).2
        "abc123")).body = [104, 101, 108, 108, 111] ∧
    (cacheGet "abc123" (storageGetOfRedis
        (cachePutRedis 100 [] "abc123" 5 [104, 101, 108, 108, 111]).2
        "abc123")).contentLengthHeader = some [5] ∧
    decimalAscii 5 = [53] ∧
    (cacheGet "abc123" (storageGetOfRedis
        (cachePutRedis 100 [] "abc123" 5 [104, 101, 108, 108, 111]).2
        "abc123")).contentLengthHeader ≠ some (decimalAscii 5) ∧
    RedisStorage.get ""
        (cachePutRedis 100
          (cachePutRedis 100 [] "abc123" 5 [104, 101, 108, 108, 111]).2
          "abc123" 5 [119, 111, 114, 108, 100]).2 "abc123"
      = some ([119, 111, 114, 108, 100], (5 : Int)) := by
  refine ⟨by decide, by decide, by decide, by decide, by decide, by decide,
    by decide, by decide⟩

/-- C10: `RedisStorage.Put` ignores the declared size parameter entirely:
the stored value is exactly the bytes read from the reader, for every
size argument, with no error, truncation or padding. -/
theorem c10_redis_put_ignores_size (ns key : String) (st : RedisState)
    (data : List Nat) (s₁ s₂ : Int) :
    RedisStorage.put ns st key data s₁ = RedisStorage.put ns st key data s₂ ∧
    RedisStorage.get ns (RedisStorage.put ns st key data s₁) key
      = some (data, (data.length : Int)) := by
  refine ⟨rfl, ?_⟩
  simp only [RedisStorage.get, RedisStorage.put, redisLookup_set_self]

theorem constantTimeCompare_self (x : List Nat) : constantTimeCompare x x = 1 := by
  unfold constantTimeCompare
  rw [if_pos rfl]
  have hz : ctcAccum (x.zip x) 0 = 0 :=
    (ctcAccum_eq_zero_iff _ _).mpr ⟨rfl, fun p hp => mem_zip_self p hp⟩
  rw [hz]
  decide

theorem basicAuthGate_pass (users : List UserAuth) (u : String)
    (cred : UserCredential) (h : credLookup users u = some cred) :
    basicAuthGate users (some (u, cred.password)) = .proceed u cred.role := by
  simp [basicAuthGate, h, constantTimeCompare_self]

theorem storageGetOfRedis_hit (st : RedisState) (key : String) (data : List Nat)
    (h : redisLookup st key = some data) :
    storageGetOfRedis st key = .ok data (data.length : Int) := by
  simp [storageGetOfRedis, RedisStorage.get, redisKey_empty, h]

/-- C4: with auth enabled, a reader credential gets 200 on GET and HEAD
of an existing entry but 403 on PUT; a writer credential gets 200 on GET
and HEAD and 201 on a size-respecting PUT. -/
theorem c4_reader_writer_roles (users : List UserAuth) (maxSize : Int)
    (st : RedisState) (ur uw key : String) (pr pw data body : List Nat)
    (hr : credLookup users ur = some ⟨pr, "reader"⟩)
    (hw : credLookup users uw = some ⟨pw, "writer"⟩)
    (hk : key ≠ "") (hdata : redisLookup st key = some data)
    (hcl : (body.length : Int) ≤ maxSize) :
    (serveCache users true maxSize st .get (some (ur, pr)) key
        (body.length : Int) body).1.status = 200 ∧
    (serveCache users true maxSize st .head (some (ur, pr)) key
        (body.length : Int) body).1.status = 200 ∧
    (serveCache users true maxSize st .put (some (ur, pr)) key
        (body.length : Int) body).1.status = 403 ∧
    (serveCache users true maxSize st .put (some (ur, pr)) key
        (body.length : Int) body).2 = st ∧
    (serveCache users true maxSize st .get (some (uw, pw)) key
        (body.length : Int) body).1.status = 200 ∧
    (serveCache users true maxSize st .head (some (uw, pw)) key
        (body.length : Int) body).1.status = 200 ∧
    (serveCache users true maxSize st .put (some (uw, pw)) key
        (body.length : Int) body).1.status = 201 := by
  have hgr : basicAuthGate users (some (ur, pr)) = .proceed ur "reader" :=
    basicAuthGate_pass users ur ⟨pr, "reader"⟩ hr
  have hgw : basicAuthGate users (some (uw, pw)) = .proceed uw "writer" :=
    basicAuthGate_pass users uw ⟨pw, "writer"⟩ hw
  have hget : storageGetOfRedis st key = .ok data (data.length : Int) :=
    storageGetOfRedis_hit st key data hdata
  have hex : storageExistsOfRedis st key = .ok true := by
    simp [storageExistsOfRedis, RedisStorage.exists, redisKey_empty, hdata]
  have h2 : ¬((body.length : Int) > maxSize) := by omega
  have h3 : ¬((body.length : Int) < 0) := by omega
  refine ⟨?_, ?_, ?_, ?_, ?_, ?_, ?_⟩ <;>
    simp [serveCache, hgr, hgw, hget, hex, cacheGet, cacheHead, cachePut,
      hk, h2, h3, statusResponse]

/-- Witness for C4 with a two-user table, a stored entry and a 1-byte body. -/
theorem c4_reader_writer_roles_witness :
    (serveCache [⟨"r", [1], "reader"⟩, ⟨"w", [2], "writer"⟩] true 3 [("k", [7])]
        .get (some ("r", [1])) "k" 1 [9]).1.status = 200 ∧
    (serveCache [⟨"r", [1], "reader"⟩, ⟨"w", [2], "writer"⟩] true 3 [("k", [7])]
        .put (some ("r", [1])) "k" 1 [9]).1.status = 403 ∧
    (serveCache [⟨"r", [1], "reader"⟩, ⟨"w", [2], "writer"⟩] true 3 [("k", [7])]
        .put (some ("w", [2])) "k" 1 [9]).1.status = 201 := by
  have h := c4_reader_writer_roles
    [⟨"r", [1], "reader"⟩, ⟨"w", [2], "writer"⟩] 3 [("k", [7])]
    "r" "w" "k" [1] [2] [7] [9]
    (by decide) (by decide) (by decide) (by decide) (by norm_num)
  exact ⟨h.1, h.2.2.1, h.2.2.2.2.2.2⟩

/-- C9: with auth enabled, GET and HEAD perform no role check at all: a
request with any successfully authenticating credential — whatever its
role string — behaves exactly as with auth disabled; PUT behaves as with
auth disabled exactly when the stored role string equals `"writer"`
(case-sensitive string equality), and is answered 403 otherwise. -/
theorem c9_no_role_check_on_reads (users : List UserAuth) (maxSize : Int)
    (st : RedisState) (u key : String) (p body : List Nat) (role : String)
    (contentLength : Int) (h : credLookup users u = some ⟨p, role⟩) :
    serveCache users true maxSize st .get (some (u, p)) key contentLength body
      = serveCache users false maxSize st .get (some (u, p)) key contentLength body ∧
    serveCache users true maxSize st .head (some (u, p)) key contentLength body
      = serveCache users false maxSize st .head (some (u, p)) key contentLength body ∧
    (role = "writer" →
      serveCache users true maxSize st .put (some (u, p)) key contentLength body
        = serveCache users false maxSize st .put (some (u, p)) key contentLength body) ∧
    (role ≠ "writer" →
      serveCache users true maxSize st .put (some (u, p)) key contentLength body
        = (statusResponse 403, st)) := by
  have hg : basicAuthGate users (some (u, p)) = .proceed u role :=
    basicAuthGate_pass users u ⟨p, role⟩ h
  refine ⟨?_, ?_, fun hrole => ?_, fun hrole => ?_⟩
  · simp [serveCache, hg]
  · simp [serveCache, hg]
  · simp [serveCache, hg, hrole]
  · simp [serveCache, hg, hrole]

/-- Witness for C9: a credential whose role is `"Writer"` (capitalised,
hence not the exact string `"writer"`) passes GET untouched but gets 403
on PUT. -/
theorem c9_no_role_check_on_reads_witness :
    serveCache [⟨"adm", [5], "Writer"⟩] true 3 [("k", [7])] .get
        (some ("adm", [5])) "k" 1 [9]
      = serveCache [⟨"adm", [5], "Writer"⟩] false 3 [("k", [7])] .get
        (some ("adm", [5])) "k" 1 [9] ∧
    serveCache [⟨"adm", [5], "Writer"⟩] true 3 [("k", [7])] .put
        (some ("adm", [5])) "k" 1 [9]
      = (statusResponse 403, [("k", [7])]) := by
  have h := c9_no_role_check_on_reads [⟨"adm", [5], "Writer"⟩] 3 [("k", [7])]
    "adm" "k" [5] [9] "Writer" 1 (by decide)
  exact ⟨h.1, h.2.2.2 (by decide)⟩

/-- C6: with auth enabled, a request to `/cache/{key}` with a missing or
malformed Basic Auth header, an unknown username, or a wrong secret is
rejected with the identical 401 challenge response (status, headers and
body all equal), carrying `WWW-Authenticate: Basic realm=...`; in
particular the unknown-username response equals the bad-password
response, preventing username enumeration. -/
theorem c6_basic_auth_401 (users : List UserAuth) (maxSize : Int)
    (st : RedisState) (m : Method) (key : String) (contentLength : Int)
    (body p₁ p₂ : List Nat) (u₁ u₂ : String) (cred : UserCredential)
    (hu₁ : credLookup users u₁ = none)
    (hu₂ : credLookup users u₂ = some cred)
    (hb₂ : ∀ x ∈ p₂, x < 256) (hbc : ∀ x ∈ cred.password, x < 256)
    (hne : p₂ ≠ cred.password) :
    serveCache users true maxSize st m none key contentLength body
      = (challengeResponse, st) ∧
    serveCache users true maxSize st m (some (u₁, p₁)) key contentLength body
      = (challengeResponse, st) ∧
    serveCache users true maxSize st m (some (u₂, p₂)) key contentLength body
      = (challengeResponse, st) ∧
    serveCache users true maxSize st m (some (u₁, p₁)) key contentLength body
      = serveCache users true maxSize st m (some (u₂, p₂)) key contentLength body ∧
    challengeResponse.status = 401 ∧
    challengeResponse.wwwAuthenticate = some "Basic realm=\"Gradle Build Cache\"" ∧
    challengeResponse.body = [] := by
  have hwrong : constantTimeCompare p₂ cred.password ≠ 1 := fun h1 =>
    hne ((constantTimeCompare_eq_one_iff p₂ cred.password hb₂ hbc).mp h1)
  have g₀ : basicAuthGate users none = .abort challengeResponse := rfl
  have g₁ : basicAuthGate users (some (u₁, p₁)) = .abort challengeResponse := by
    simp [basicAuthGate, hu₁]
  have g₂ : basicAuthGate users (some (u₂, p₂)) = .abort challengeResponse := by
    simp [basicAuthGate, hu₂, hwrong]
  refine ⟨?_, ?_, ?_, ?_, rfl, rfl, rfl⟩ <;>
    simp [serveCache, g₀, g₁, g₂]

/-- Witness for C6: unknown user `"ghost"` and known user `"alice"` with
a wrong password receive the same challenge response. -/
theorem c6_basic_auth_401_witness :
    serveCache [⟨"alice", [9, 9], "reader"⟩] true 3 [] .get
        (some ("ghost", [1])) "k" 0 []
      = (challengeResponse, []) ∧
    serveCache [⟨"alice", [9, 9], "reader"⟩] true 3 [] .get
        (some ("alice", [9, 8])) "k" 0 []
      = (challengeResponse, []) ∧
    serveCache [⟨"alice", [9, 9], "reader"⟩] true 3 [] .get
        (some ("ghost", [1])) "k" 0 []
      = serveCache [⟨"alice", [9, 9], "reader"⟩] true 3 [] .get
        (some ("alice", [9, 8])) "k" 0 [] := by
  have h := c6_basic_auth_401 [⟨"alice", [9, 9], "reader"⟩] 3 [] .get "k" 0
    [] [1] [9, 8] "ghost" "alice" ⟨[9, 9], "reader"⟩
    (by decide) (by decide) (by decide) (by decide) (by decide)
  exact ⟨h.2.1, h.2.2.1, h.2.2.2.1⟩

/-- C7 counterexample: with the one-user table `alice`, a request with
the unknown username `bob` and a request with the known username `alice`
and a wrong same-length secret are both rejected 401, yet the
middleware's computational paths differ: the unknown-username request
aborts right after the table lookup, before any secret comparison, while
the known-username request runs the constant-time comparison — so the
path (and hence latency) is not independent of username existence. -/
theorem c7_constant_path_counterexample :
    basicAuthTrace [⟨"alice", [115, 101, 99, 114, 101, 116], "writer"⟩]
        (some ("bob", [115, 101, 99, 114, 101, 116]))
      = [.lookup] ∧
    basicAuthTrace [⟨"alice", [115, 101, 99, 114, 101, 116], "writer"⟩]
        (some ("alice", [88, 88, 88, 88, 88, 88]))
      = [.lookup, .compareSecrets 6] ∧
    basicAuthTrace [⟨"alice", [115, 101, 99, 114, 101, 116], "writer"⟩]
        (some ("bob", [115, 101, 99, 114, 101, 116]))
      ≠ basicAuthTrace [⟨"alice", [115, 101, 99, 114, 101, 116], "writer"⟩]
        (some ("alice", [88, 88, 88, 88, 88, 88])) ∧
    basicAuthGate [⟨"alice", [115, 101, 99, 114, 101, 116], "writer"⟩]
        (some ("bob", [115, 101, 99, 114, 101, 116]))
      = .abort challengeResponse ∧
    basicAuthGate [⟨"alice", [115, 101, 99, 114, 101, 116], "writer"⟩]
        (some ("alice", [88, 88, 88, 88, 88, 88]))
      = .abort challengeResponse := by
  refine ⟨by decide, by decide, by decide, by decide, by decide⟩

/-- C7 amended: the secret comparison itself is constant-time in the
secret's content — for a known username, two wrong supplied secrets of
equal length drive the middleware through the identical computational
path — but the gate exits early on an unknown username, performing no
secret comparison at all, so the path is not independent of whether the
username exists. -/
theorem c7_constant_time_compare_amended (users : List UserAuth)
    (u u' : String) (cred : UserCredential) (p₁ p₂ p' : List Nat)
    (h : credLookup users u = some cred) (hlen : p₁.length = p₂.length)
    (hb₁ : ∀ x ∈ p₁, x < 256) (hb₂ : ∀ x ∈ p₂, x < 256)
    (hbc : ∀ x ∈ cred.password, x < 256)
    (hne₁ : p₁ ≠ cred.password) (hne₂ : p₂ ≠ cred.password)
    (h' : credLookup users u' = none) :
    basicAuthTrace users (some (u, p₁)) = basicAuthTrace users (some (u, p₂)) ∧
    basicAuthTrace users (some (u', p')) = [.lookup] ∧
    (AuthStep.compareSecrets (ctcByteOps p₁ cred.password))
      ∈ basicAuthTrace users (some (u, p₁)) ∧
    (∀ n, AuthStep.compareSecrets n ∉ basicAuthTrace users (some (u', p'))) ∧
    basicAuthGate users (some (u, p₁)) = .abort challengeResponse ∧
    basicAuthGate users (some (u', p')) = .abort challengeResponse := by
  have hw₁ : constantTimeCompare p₁ cred.password ≠ 1 := fun hc =>
    hne₁ ((constantTimeCompare_eq_one_iff p₁ cred.password hb₁ hbc).mp hc)
  have hw₂ : constantTimeCompare p₂ cred.password ≠ 1 := fun hc =>
    hne₂ ((constantTimeCompare_eq_one_iff p₂ cred.password hb₂ hbc).mp hc)
  have hops : ctcByteOps p₁ cred.password = ctcByteOps p₂ cred.password := by
    simp [ctcByteOps, hlen]
  refine ⟨?_, ?_, ?_, ?_, ?_, ?_⟩
  · simp [basicAuthTrace, h, hw₁, hw₂, hops]
  · simp [basicAuthTrace, h']
  · simp [basicAuthTrace, h, hw₁]
  · intro n
    simp [basicAuthTrace, h']
  · simp [basicAuthGate, h, hw₁]
  · simp [basicAuthGate, h']

/-- Witness for the amended C7 at a concrete table and secrets. -/
theorem c7_constant_time_compare_amended_witness :
    basicAuthTrace [⟨"alice", [1, 2], "reader"⟩] (some ("alice", [3, 4]))
      = basicAuthTrace [⟨"alice", [1, 2], "reader"⟩] (some ("alice", [5, 6])) ∧
    basicAuthTrace [⟨"alice", [1, 2], "reader"⟩] (some ("bob", [7]))
      = [.lookup] := by
  have h := c7_constant_time_compare_amended [⟨"alice", [1, 2], "reader"⟩]
    "alice" "bob" ⟨[1, 2], "reader"⟩ [3, 4] [5, 6] [7]
    (by decide) (by decide) (by decide) (by decide) (by decide)
    (by decide) (by decide) (by decide)
  exact ⟨h.1, h.2.1⟩

/-- C8: `/ping` always answers 200 with the fixed body `"pong"` without
touching the storage port (its outcome is independent of the backend's
reply), `/health` answers 503 with the structured unhealthy body exactly
when `Storage.Ping` fails and 200 with the structured healthy body
otherwise, and the router registers both endpoints outside the
authenticated cache group. -/
theorem c8_ping_health (pr₁ pr₂ : Option String) (msg : String)
    (aEnabled mEnabled : Bool) :
    handlePing pr₁ = handlePing pr₂ ∧
    handlePing pr₁ = ⟨200, "pong", false⟩ ∧
    ((handleHealth pr₁).status = 503 ↔ pr₁.isSome) ∧
    ((handleHealth pr₁).status = 200 ↔ pr₁ = none) ∧
    handleHealth (some msg) = ⟨503, "unhealthy", "unreachable", some msg, true⟩ ∧
    handleHealth none = ⟨200, "healthy", "connected", none, true⟩ ∧
    ((setupRoutes aEnabled mEnabled).filter
        (fun r => r.path == "/ping" || r.path == "/health")).all
      (fun r => !r.requiresAuth) = true := by
  refine ⟨rfl, rfl, ?_, ?_, rfl, rfl, ?_⟩
  · cases pr₁ <;> simp [handleHealth]
  · cases pr₁ <;> simp [handleHealth]
  · cases aEnabled <;> cases mEnabled <;> decide

/-- C5, evaluated at a failing input: for a stored entry whose reported
size is 100, the GET handler answers 200 with `Content-Type:
application/octet-stream`, streams the content, and answers 400/404/500
as claimed for the error cases with empty bodies — but the
`Content-Length` header it sets is `string(rune(100))`, the one-byte
UTF-8 string `"d"` (byte `[100]`), not the decimal representation
`"100"` (bytes `[49, 48, 48]`) of the reported size, so the header does
not match the size reported by `Storage.Get`. -/
theorem c5_content_length_header_bug :
    (cacheGet "k" (.ok (List.replicate 100 7) 100)).status = 200 ∧
    (cacheGet "k" (.ok (List.replicate 100 7) 100)).body
      = List.replicate 100 7 ∧
    (cacheGet "k" (.ok (List.replicate 100 7) 100)).contentType
      = some "application/octet-stream" ∧
    (cacheGet "k" (.ok (List.replicate 100 7) 100)).contentLengthHeader
      = some [100] ∧
    decimalAscii 100 = [49, 48, 48] ∧
    (cacheGet "k" (.ok (List.replicate 100 7) 100)).contentLengthHeader
      ≠ some (decimalAscii 100) ∧
    cacheGet "" (.ok [] 0) = statusResponse 400 ∧
    cacheGet "k" .notFound = statusResponse 404 ∧
    cacheGet "k" (.err "backend exploded") = statusResponse 500 ∧
    (cacheGet "k" (.err "backend exploded")).body = [] := by
  refine ⟨rfl, by decide, rfl, ?_, ?_, ?_, by decide, by decide, by decide, rfl⟩
  · decide
  · decide
  · decide

end GradleCache
